import Mathlib

/-!
# Verification of the `slitu` utility library

Shallow embedding of the two components of the repository:

* `src/fs.rs` — `compare_text_files`, a line-oriented text-file comparator
  with optional substring filters, and the `SlashFmt` path formatter
  (`src/fs/slash_fmt.rs` holds an identical copy of the trait impl);
* `src/time/timestamp.rs` — `Timestamp`, a UTC instant wrapper with
  ordering, `is_current`, and JSON (de)serialization.

Files are modelled by their observable read behaviour: a path either fails
to open (with an OS error string) or yields a finite sequence of line-read
results, each of which is either a decoded line or a read/decode error —
exactly the interface `BufReader::lines()` presents to `compare_text_files`.
Error values are the literal message strings the Rust code formats.
-/

namespace Slitu

/-- Embedding of `Path::to_slash_fmt` (`src/fs/slash_fmt.rs:13-17`, duplicated
at `src/fs.rs:15-19`): `self.to_string_lossy().replace("\\", "/")`.  Paths are
modelled by their textual form (`to_string_lossy` output); `str::replace` with
the single-character pattern `"\\"` is per-character substitution. -/
def toSlashFmt (p : String) : String :=
  String.mk (p.data.map (fun c => if c = '\\' then '/' else c))

/-- The message `format!("Error '{}' opening '{}'.", err, path.to_slash_fmt())`
from `src/fs.rs:31,33`. -/
def openErrorMsg (err path : String) : String :=
  "Error '" ++ err ++ "' opening '" ++ toSlashFmt path ++ "'."

/-- The message `format!("Error '{}' reading line from '{}'.", err, path.to_slash_fmt())`
from `src/fs.rs:42-46,58-62`. -/
def readErrorMsg (err path : String) : String :=
  "Error '" ++ err ++ "' reading line from '" ++ toSlashFmt path ++ "'."

/-- The message `format!("'{}' is shorter and contains {} lines.", path.to_slash_fmt(), n)`
from `src/fs.rs:51-55,87-91`. -/
def shorterMsg (path : String) (n : Nat) : String :=
  "'" ++ toSlashFmt path ++ "' is shorter and contains " ++ toString n ++ " lines."

/-- The message `format!("Mismatch at line {}:\n\t{}: '{}'\n\t{}: '{}'", ...)`
from `src/fs.rs:74-81`. -/
def mismatchMsg (lineNumber : Nat) (path1 line1 path2 line2 : String) : String :=
  "Mismatch at line " ++ toString lineNumber ++ ":\n\t" ++ toSlashFmt path1 ++
    ": '" ++ line1 ++ "'\n\t" ++ toSlashFmt path2 ++ ": '" ++ line2 ++ "'"

/-- Substring containment on character lists: some suffix of `s` starts with
`pat`.  Models Rust `str::contains(&str)` (`src/fs.rs:67`). -/
def containsSub (pat : List Char) : List Char → Bool
  | [] => pat.isPrefixOf []
  | c :: t => pat.isPrefixOf (c :: t) || containsSub pat t

/-- `line.contains(filter)` on the string level. -/
def strContains (s pat : String) : Bool := containsSub pat.data s.data

/-- The filter loop of `src/fs.rs:65-71`: with filters present, a line pair is
skipped when some filter occurs in either line (`l1.contains(filter) ||
l2.contains(filter)`), the filters being tried in order. -/
def filterSkip (filters : Option (List String)) (line1 line2 : String) : Bool :=
  match filters with
  | none => false
  | some fl => fl.any (fun f => strContains line1 f || strContains line2 f)

/-- A line pair survives one loop iteration without aborting the comparison:
it is either filter-skipped or equal. -/
def pairPasses (filters : Option (List String)) (line1 line2 : String) : Bool :=
  filterSkip filters line1 line2 || (line1 == line2)

instance {ε α : Type} [DecidableEq ε] [DecidableEq α] : DecidableEq (Except ε α) := fun a b =>
  match a, b with
  | Except.error e, Except.error f =>
    if h : e = f then Decidable.isTrue (by rw [h])
    else Decidable.isFalse (by intro hh; injection hh; contradiction)
  | Except.ok x, Except.ok y =>
    if h : x = y then Decidable.isTrue (by rw [h])
    else Decidable.isFalse (by intro hh; injection hh; contradiction)
  | Except.error _, Except.ok _ => Decidable.isFalse (by intro hh; injection hh)
  | Except.ok _, Except.error _ => Decidable.isFalse (by intro hh; injection hh)

/-- Observable behaviour of `File::open` + `BufReader::lines()` for one path:
either the open fails with an OS error string, or it yields a finite sequence
of line-read results (`Ok(line)` with the terminator stripped, or `Err(e)` for
a read/decode error). -/
inductive FileData where
  | openError (err : String)
  | content (lines : List (Except String String))
deriving DecidableEq, Repr

/-- The main loop of `compare_text_files` (`src/fs.rs:37-94`), starting from a
given value of `line_number` and the remaining line-result sequences of the
two files.  Mirrors the source statement by statement:

* loop over file 1's lines, incrementing `line_number`;
* a file-1 line error aborts with the file-1 read error;
* `lines_2.next()` returning `None` aborts with "file 2 is shorter and
  contains `line_number - 1` lines";
* a file-2 line error aborts with the file-2 read error;
* a filter hit does `continue 'next_line`;
* unequal lines abort with the mismatch message;
* after the loop, `lines_2.next().is_some()` (an `Err` item included) aborts
  with "file 1 is shorter and contains `line_number` lines". -/
def compareLines (path1 path2 : String) (filters : Option (List String)) :
    Nat → List (Except String String) → List (Except String String) → Except String Unit
  | lineNumber, [], rest2 =>
    if rest2.isEmpty then Except.ok () else Except.error (shorterMsg path1 lineNumber)
  | lineNumber, l1 :: rest1, rest2 =>
    let n := lineNumber + 1
    match l1 with
    | Except.error err => Except.error (readErrorMsg err path1)
    | Except.ok line1 =>
      match rest2 with
      | [] => Except.error (shorterMsg path2 (n - 1))
      | l2 :: rest2 =>
        match l2 with
        | Except.error err => Except.error (readErrorMsg err path2)
        | Except.ok line2 =>
          if filterSkip filters line1 line2 then
            compareLines path1 path2 filters n rest1 rest2
          else if line1 ≠ line2 then
            Except.error (mismatchMsg n path1 line1 path2 line2)
          else
            compareLines path1 path2 filters n rest1 rest2

/-- Embedding of `compare_text_files` (`src/fs.rs:23-95`).  `fsys` gives the
observable content of every path; file 1 is opened first, so its open error
wins when both paths fail to open. -/
def compare_text_files (fsys : String → FileData) (p1 p2 : String)
    (filters : Option (List String)) : Except String Unit :=
  match fsys p1 with
  | FileData.openError err => Except.error (openErrorMsg err p1)
  | FileData.content ls1 =>
    match fsys p2 with
    | FileData.openError err => Except.error (openErrorMsg err p2)
    | FileData.content ls2 => compareLines p1 p2 filters 0 ls1 ls2

/-- Embedding of `Timestamp` (`src/time/timestamp.rs:15-18`): a single
immutable field wrapping a `DateTime<Utc>` instant.  The instant is modelled
as a signed count of milliseconds since the Unix epoch — chrono's timeline
order and equality on `DateTime<Utc>` are exactly the order and equality of
this count, and millisecond resolution meets the spec's stated sub-second
precision requirement.  Equality, ordering and hashing all derive from the
wrapped value, as in the Rust `derive` list. -/
structure Timestamp where
  time : Int
deriving DecidableEq, Repr

/-- Embedding of `Timestamp::is_current` (`src/time/timestamp.rs:57-59`):
`self.time >= other.time`. -/
def Timestamp.is_current (self other : Timestamp) : Bool :=
  self.time ≥ other.time

/-- Leap year of the proleptic Gregorian calendar, chrono's calendar:
divisible by 4 and not by 100, or divisible by 400. -/
def isLeap (y : Nat) : Bool :=
  (y % 4 == 0 && y % 100 != 0) || (y % 400 == 0)

/-- Number of days of month `m` (1-12) in year `y`. -/
def daysInMonth (y m : Nat) : Nat :=
  if m = 2 then (if isLeap y then 29 else 28)
  else if m = 4 ∨ m = 6 ∨ m = 9 ∨ m = 11 then 30
  else 31

/-- Number of days in year `y`. -/
def daysInYear (y : Nat) : Nat := if isLeap y then 366 else 365

/-- Total days of the `k` consecutive years starting at year `a`. -/
def sumYears : Nat → Nat → Nat
  | _, 0 => 0
  | a, k + 1 => daysInYear a + sumYears (a + 1) k

/-- Total days of the `k` consecutive months starting at month `m` of year `y`. -/
def sumMonths (y : Nat) : Nat → Nat → Nat
  | _, 0 => 0
  | m, k + 1 => daysInMonth y m + sumMonths y (m + 1) k

/-- Split a day count (days since 1970-01-01) into (year, day of year),
scanning years upward from `a`.  The first argument is fuel bounding the
number of years scanned; every caller passes enough (each scanned year
consumes at least 365 days). -/
def yearFromDays : Nat → Nat → Nat → Nat × Nat
  | 0, a, n => (a, n)
  | fuel + 1, a, n =>
    if n < daysInYear a then (a, n) else yearFromDays fuel (a + 1) (n - daysInYear a)

/-- Split a day-of-year into (month, day-of-month counted from 0), scanning
months upward from `m`.  The second argument is fuel bounding the number of
months scanned. -/
def monthFromDays (y : Nat) : Nat → Nat → Nat → Nat × Nat
  | 0, m, doy => (m, doy)
  | fuel + 1, m, doy =>
    if doy < daysInMonth y m then (m, doy) else monthFromDays y fuel (m + 1) (doy - daysInMonth y m)

/-- Days since 1970-01-01 of the civil date `y-m-d` (month and day 1-based). -/
def daysFromCivil (y m d : Nat) : Nat :=
  sumYears 1970 (y - 1970) + sumMonths y 1 (m - 1) + (d - 1)

/-- Civil date (year, month, day), months and days 1-based, of a count of
days since 1970-01-01. -/
def civilFromDays (n : Nat) : Nat × Nat × Nat :=
  let p := yearFromDays (n + 1) 1970 n
  let q := monthFromDays p.1 12 1 p.2
  (p.1, q.1, q.2 + 1)

/-- The decimal digit character for `d` ≤ 9. -/
def digitChar (d : Nat) : Char :=
  if d = 0 then '0' else if d = 1 then '1' else if d = 2 then '2' else if d = 3 then '3'
  else if d = 4 then '4' else if d = 5 then '5' else if d = 6 then '6' else if d = 7 then '7'
  else if d = 8 then '8' else '9'

/-- The value of a decimal digit character. -/
def parseDigit (c : Char) : Option Nat :=
  if c = '0' then some 0 else if c = '1' then some 1 else if c = '2' then some 2
  else if c = '3' then some 3 else if c = '4' then some 4 else if c = '5' then some 5
  else if c = '6' then some 6 else if c = '7' then some 7 else if c = '8' then some 8
  else if c = '9' then some 9 else none

/-- Two-digit zero-padded decimal rendering. -/
def pad2 (n : Nat) : List Char := [digitChar (n / 10), digitChar (n % 10)]

/-- Three-digit zero-padded decimal rendering. -/
def pad3 (n : Nat) : List Char :=
  [digitChar (n / 100), digitChar (n / 10 % 10), digitChar (n % 10)]

/-- Four-digit zero-padded decimal rendering. -/
def pad4 (n : Nat) : List Char :=
  [digitChar (n / 1000), digitChar (n / 100 % 10), digitChar (n / 10 % 10), digitChar (n % 10)]

/-- Value of two decimal digit characters. -/
def parse2 (a b : Char) : Option Nat :=
  match parseDigit a, parseDigit b with
  | some x, some y => some (10 * x + y)
  | _, _ => none

/-- Value of three decimal digit characters. -/
def parse3 (a b c : Char) : Option Nat :=
  match parseDigit a, parseDigit b, parseDigit c with
  | some x, some y, some z => some (100 * x + 10 * y + z)
  | _, _, _ => none

/-- Value of four decimal digit characters. -/
def parse4 (a b c d : Char) : Option Nat :=
  match parseDigit a, parseDigit b, parseDigit c, parseDigit d with
  | some x, some y, some z, some w => some (1000 * x + 100 * y + 10 * z + w)
  | _, _, _, _ => none

/-- Modelled from the spec: the RFC-3339 UTC text form of an instant,
`YYYY-MM-DDTHH:MM:SS.mmmZ` (the chrono rendering used by serde is not under
`src/`; the spec fixes the format by example, `2026-02-24T12:00:00.123Z`,
with at least millisecond sub-second precision).  Input is a count of
milliseconds since the Unix epoch. -/
def printRfc3339 (ms : Nat) : List Char :=
  let days := ms / 86400000
  let rem := ms % 86400000
  let y := (civilFromDays days).1
  let mo := (civilFromDays days).2.1
  let d := (civilFromDays days).2.2
  pad4 y ++ ['-'] ++ pad2 mo ++ ['-'] ++ pad2 d ++ ['T'] ++ pad2 (rem / 3600000) ++ [':'] ++
    pad2 (rem / 60000 % 60) ++ [':'] ++ pad2 (rem / 1000 % 60) ++ ['.'] ++ pad3 (rem % 1000) ++
    ['Z']

/-- Modelled from the spec: parser for the RFC-3339 UTC text form above
(the chrono parser used by serde is not under `src/`).  Validates the
calendar fields — an out-of-range month, day, hour, minute or second is an
invalid timestamp string — and returns milliseconds since the Unix epoch.
The supported range is years 1970-9999. -/
def parseRfc3339 (cs : List Char) : Option Nat :=
  match cs with
  | y1 :: y2 :: y3 :: y4 :: s1 :: o1 :: o2 :: s2 :: d1 :: d2 :: s3 :: h1 :: h2 :: s4 ::
      i1 :: i2 :: s5 :: e1 :: e2 :: s6 :: f1 :: f2 :: f3 :: s7 :: [] =>
    if s1 = '-' ∧ s2 = '-' ∧ s3 = 'T' ∧ s4 = ':' ∧ s5 = ':' ∧ s6 = '.' ∧ s7 = 'Z' then
      match parse4 y1 y2 y3 y4, parse2 o1 o2, parse2 d1 d2, parse2 h1 h2,
          parse2 i1 i2, parse2 e1 e2, parse3 f1 f2 f3 with
      | some y, some mo, some d, some hh, some mi, some ss, some ms =>
        if 1970 ≤ y ∧ y ≤ 9999 ∧ 1 ≤ mo ∧ mo ≤ 12 ∧ 1 ≤ d ∧ d ≤ daysInMonth y mo ∧
            hh ≤ 23 ∧ mi ≤ 59 ∧ ss ≤ 59 then
          some (daysFromCivil y mo d * 86400000 + hh * 3600000 + mi * 60000 + ss * 1000 + ms)
        else none
      | _, _, _, _, _, _, _ => none
    else none
  | _ => none

/-- Upper bound (exclusive) of the supported instant range: the millisecond
count of 10000-01-01T00:00:00.000Z. -/
def msBound : Nat := sumYears 1970 8030 * 86400000

/-- Modelled from the spec: JSON serialization of a `Timestamp`
(`serde_json::to_string` over the derived `Serialize` is not under `src/`).
The spec fixes the wire format: a JSON object with the single field `time`
holding the RFC-3339 UTC string, e.g. `\x7b"time":"2026-02-24T12:00:00.123Z"\x7d`. -/
def serializeTimestamp (t : Timestamp) : String :=
  String.mk ("\x7b\"time\":\"".data ++ printRfc3339 t.time.toNat ++ "\"\x7d".data)

/-- Modelled from the spec: JSON deserialization of a `Timestamp`, the body
of `Timestamp::from_reader` (`src/time/timestamp.rs:52-54` merely delegates
to `serde_json::from_reader`, which is not under `src/`).  Accepts the
canonical object form with the single string field `time` holding a valid
RFC-3339 UTC timestamp, and fails with a descriptive error otherwise —
malformed JSON, a missing or wrong-typed field, or an invalid timestamp
string never produce a default value. -/
def deserializeTimestamp (s : String) : Except String Timestamp :=
  let cs := s.data
  if cs.take 9 = "\x7b\"time\":\"".data ∧ cs.length = 35 ∧ cs.drop 33 = "\"\x7d".data then
    match parseRfc3339 ((cs.drop 9).take 24) with
    | some n => Except.ok (Timestamp.mk (Int.ofNat n))
    | none => Except.error "invalid timestamp string in Timestamp JSON"
  else
    Except.error "malformed Timestamp JSON: expected an object with one string field named time"

/-- Embedding of `Timestamp::from_path` (`src/time/timestamp.rs:45-49`):
open the file — propagating an open failure as an error — and deserialize
its whole content via `from_reader`. -/
def Timestamp.from_path (fsys : String → Option String) (p : String) :
    Except String Timestamp :=
  match fsys p with
  | none => Except.error "could not open timestamp file"
  | some content => deserializeTimestamp content

/-- When every paired line passes (filter-skip or equal), the loop outcome is
determined by the two line counts alone: equal counts succeed, otherwise the
shorter file is reported with `start + its length` as the count. -/
theorem compareLines_of_passes (path1 path2 : String) (filters : Option (List String)) :
    ∀ (ls1 ls2 : List String) (n : Nat),
      (∀ p ∈ ls1.zip ls2, pairPasses filters p.1 p.2 = true) →
      compareLines path1 path2 filters n (ls1.map Except.ok) (ls2.map Except.ok) =
        (if ls1.length < ls2.length then Except.error (shorterMsg path1 (n + ls1.length))
         else if ls2.length < ls1.length then Except.error (shorterMsg path2 (n + ls2.length))
         else Except.ok ()) := by
  intro ls1
  induction ls1 with
  | nil =>
    intro ls2 n h
    cases ls2 with
    | nil => simp [compareLines]
    | cons b t2 => simp [compareLines]
  | cons a t1 ih =>
    intro ls2 n h
    cases ls2 with
    | nil => simp [compareLines]
    | cons b t2 =>
      have hp : pairPasses filters a b = true := h (a, b) (by simp)
      have ht : ∀ p ∈ t1.zip t2, pairPasses filters p.1 p.2 = true := by
        intro p hmem
        exact h p (by simp [hmem])
      have harith1 : n + 1 + t1.length = n + (t1.length + 1) := by omega
      have harith2 : n + 1 + t2.length = n + (t2.length + 1) := by omega
      by_cases hs : filterSkip filters a b = true
      · simp only [List.map_cons, compareLines, hs, if_true, ih t2 (n + 1) ht,
          List.length_cons, harith1, harith2]
        by_cases h1 : t1.length < t2.length
        · simp [h1, Nat.succ_lt_succ_iff]
        · by_cases h2 : t2.length < t1.length <;>
            simp [h1, h2, Nat.succ_lt_succ_iff]
      · have hab : a = b := by
          have := hp
          simp only [pairPasses, hs, Bool.false_or] at this
          exact eq_of_beq this
        subst hab
        simp only [List.map_cons, compareLines, hs, if_false, ne_eq, not_true_eq_false,
          Bool.false_eq_true, ih t2 (n + 1) ht, List.length_cons, harith1, harith2]
        by_cases h1 : t1.length < t2.length
        · simp [h1, Nat.succ_lt_succ_iff]
        · by_cases h2 : t2.length < t1.length <;>
            simp [h1, h2, Nat.succ_lt_succ_iff]

/-- When the first `pre1.length` pairs all pass and the next pair is neither
filter-skipped nor equal, the loop stops there with the mismatch message for
1-based line `start + pre1.length + 1`, whatever follows in either file. -/
theorem compareLines_mismatch (path1 path2 : String) (filters : Option (List String)) :
    ∀ (pre1 pre2 : List String), pre1.length = pre2.length →
      (∀ p ∈ pre1.zip pre2, pairPasses filters p.1 p.2 = true) →
      ∀ (l1 l2 : String), filterSkip filters l1 l2 = false → l1 ≠ l2 →
      ∀ (suf1 suf2 : List (Except String String)) (n : Nat),
      compareLines path1 path2 filters n (pre1.map Except.ok ++ Except.ok l1 :: suf1)
          (pre2.map Except.ok ++ Except.ok l2 :: suf2) =
        Except.error (mismatchMsg (n + pre1.length + 1) path1 l1 path2 l2) := by
  intro pre1
  induction pre1 with
  | nil =>
    intro pre2 hlen hpass l1 l2 hskip hne suf1 suf2 n
    cases pre2 with
    | nil => simp [compareLines, hskip, hne]
    | cons b t2 => simp at hlen
  | cons a t1 ih =>
    intro pre2 hlen hpass l1 l2 hskip hne suf1 suf2 n
    cases pre2 with
    | nil => simp at hlen
    | cons b t2 =>
      have hlen' : t1.length = t2.length := by simpa using hlen
      have hp : pairPasses filters a b = true := hpass (a, b) (by simp)
      have ht : ∀ p ∈ t1.zip t2, pairPasses filters p.1 p.2 = true := by
        intro p hmem
        exact hpass p (by simp [hmem])
      have harith : n + 1 + t1.length + 1 = n + (t1.length + 1) + 1 := by omega
      by_cases hs : filterSkip filters a b = true
      · simp only [List.map_cons, List.cons_append, compareLines, hs, if_true, List.append_eq,
          ih t2 hlen' ht l1 l2 hskip hne suf1 suf2 (n + 1), List.length_cons, harith]
      · have hab : a = b := by
          have := hp
          simp only [pairPasses, hs, Bool.false_or] at this
          exact eq_of_beq this
        subst hab
        simp only [List.map_cons, List.cons_append, compareLines, hs, if_false, ne_eq,
          not_true_eq_false, Bool.false_eq_true, List.append_eq,
          ih t2 hlen' ht l1 l2 hskip hne suf1 suf2 (n + 1), List.length_cons, harith]

/-- When every line of file 1 pairs successfully against the first
`ls1.length` lines of file 2 and file 2 then has anything left — another
line *or a pending read error* — the loop reports file 1 as shorter with
`start + ls1.length` lines. -/
theorem compareLines_exhaust1 (path1 path2 : String) (filters : Option (List String)) :
    ∀ (ls1 paired : List String), ls1.length = paired.length →
      (∀ p ∈ ls1.zip paired, pairPasses filters p.1 p.2 = true) →
      ∀ (rest : List (Except String String)), rest ≠ [] →
      ∀ (n : Nat),
      compareLines path1 path2 filters n (ls1.map Except.ok) (paired.map Except.ok ++ rest) =
        Except.error (shorterMsg path1 (n + ls1.length)) := by
  intro ls1
  induction ls1 with
  | nil =>
    intro paired hlen hpass rest hne n
    cases paired with
    | nil =>
      cases rest with
      | nil => exact absurd rfl hne
      | cons r rs => simp [compareLines]
    | cons b t2 => simp at hlen
  | cons a t1 ih =>
    intro paired hlen hpass rest hne n
    cases paired with
    | nil => simp at hlen
    | cons b t2 =>
      have hlen' : t1.length = t2.length := by simpa using hlen
      have hp : pairPasses filters a b = true := hpass (a, b) (by simp)
      have ht : ∀ p ∈ t1.zip t2, pairPasses filters p.1 p.2 = true := by
        intro p hmem
        exact hpass p (by simp [hmem])
      have harith : n + 1 + t1.length = n + (t1.length + 1) := by omega
      by_cases hs : filterSkip filters a b = true
      · simp only [List.map_cons, List.cons_append, compareLines, hs, if_true, List.append_eq,
          ih t2 hlen' ht rest hne (n + 1), List.length_cons, harith]
      · have hab : a = b := by
          have := hp
          simp only [pairPasses, hs, Bool.false_or] at this
          exact eq_of_beq this
        subst hab
        simp only [List.map_cons, List.cons_append, compareLines, hs, if_false, ne_eq,
          not_true_eq_false, Bool.false_eq_true, List.append_eq,
          ih t2 hlen' ht rest hne (n + 1), List.length_cons, harith]

/-- Forward half of the success characterization: a successful loop run forces
error-free sequences of equal length whose pairs all pass. -/
theorem compareLines_ok_elim (path1 path2 : String) (filters : Option (List String)) :
    ∀ (xs ys : List (Except String String)) (n : Nat),
      compareLines path1 path2 filters n xs ys = Except.ok () →
        ∃ ls1 ls2 : List String, xs = ls1.map Except.ok ∧ ys = ls2.map Except.ok ∧
          ls1.length = ls2.length ∧ ∀ p ∈ ls1.zip ls2, pairPasses filters p.1 p.2 = true := by
  intro xs
  induction xs with
  | nil =>
    intro ys n h
    cases ys with
    | nil => exact ⟨[], [], rfl, rfl, rfl, by simp⟩
    | cons y ys' => simp [compareLines] at h
  | cons x xs' ih =>
    intro ys n h
    cases x with
    | error e => simp [compareLines] at h
    | ok a =>
      cases ys with
      | nil => simp [compareLines] at h
      | cons y ys' =>
        cases y with
        | error e => simp [compareLines] at h
        | ok b =>
          by_cases hs : filterSkip filters a b = true
          · simp only [compareLines, hs, if_true] at h
            obtain ⟨t1, t2, hx, hy, hlen, hpass⟩ := ih ys' (n + 1) h
            refine ⟨a :: t1, b :: t2, by simp [hx], by simp [hy], by simp [hlen], ?_⟩
            intro p hmem
            rcases (by simpa using hmem : p = (a, b) ∨ p ∈ t1.zip t2) with h' | h'
            · subst h'
              simp [pairPasses, hs]
            · exact hpass p h'
          · by_cases hab : a = b
            · subst hab
              simp only [compareLines, hs, if_false, ne_eq, not_true_eq_false,
                Bool.false_eq_true] at h
              obtain ⟨t1, t2, hx, hy, hlen, hpass⟩ := ih ys' (n + 1) h
              refine ⟨a :: t1, a :: t2, by simp [hx], by simp [hy], by simp [hlen], ?_⟩
              intro p hmem
              rcases (by simpa using hmem : p = (a, a) ∨ p ∈ t1.zip t2) with h' | h'
              · subst h'
                simp [pairPasses]
              · exact hpass p h'
            · simp [compareLines, hs, hab] at h

/-- Exact characterization of success: the loop returns `Ok` iff both
remaining sequences are error-free, of equal length, and every positional
pair is filter-skipped or equal. -/
theorem compareLines_ok_iff (path1 path2 : String) (filters : Option (List String)) :
    ∀ (xs ys : List (Except String String)) (n : Nat),
      compareLines path1 path2 filters n xs ys = Except.ok () ↔
        ∃ ls1 ls2 : List String, xs = ls1.map Except.ok ∧ ys = ls2.map Except.ok ∧
          ls1.length = ls2.length ∧ ∀ p ∈ ls1.zip ls2, pairPasses filters p.1 p.2 = true := by
  intro xs ys n
  constructor
  · exact compareLines_ok_elim path1 path2 filters xs ys n
  · rintro ⟨ls1, ls2, hx, hy, hlen, hpass⟩
    subst hx
    subst hy
    rw [compareLines_of_passes path1 path2 filters ls1 ls2 n hpass]
    simp [hlen]

/-- An empty filter list behaves exactly like no filters at every loop state. -/
theorem compareLines_empty_filters (path1 path2 : String) :
    ∀ (xs ys : List (Except String String)) (n : Nat),
      compareLines path1 path2 (some []) n xs ys = compareLines path1 path2 none n xs ys := by
  intro xs
  induction xs with
  | nil => intro ys n; rfl
  | cons x xs' ih =>
    intro ys n
    cases x with
    | error e => rfl
    | ok a =>
      cases ys with
      | nil => rfl
      | cons y ys' =>
        cases y with
        | error e => rfl
        | ok b =>
          have hnone : filterSkip none a b = false := rfl
          have hempty : filterSkip (some []) a b = false := rfl
          simp only [compareLines, hnone, hempty, if_false, Bool.false_eq_true]
          by_cases hab : a = b
          · subst hab
            simp [ih ys' (n + 1)]
          · simp [hab]

/-- Pairs drawn from a list zipped with itself have equal components. -/
theorem zip_self_fst_eq_snd : ∀ (ls : List String) (p : String × String),
    p ∈ ls.zip ls → p.1 = p.2 := by
  intro ls
  induction ls with
  | nil => intro p hp; simp at hp
  | cons a t ih =>
    intro p hp
    rcases (by simpa using hp : p = (a, a) ∨ p ∈ t.zip t) with h | h
    · subst h; rfl
    · exact ih p h

/-- Claim C1: when one file has strictly fewer lines and every paired line up
to the exhaustion point matches or is filter-skipped, `compare_text_files`
fails naming the shorter file with that file's total line count, whichever
argument position the shorter file occupies. -/
theorem claim_C1 (fsys : String → FileData) (p1 p2 : String)
    (filters : Option (List String)) (ls1 ls2 : List String)
    (h1 : fsys p1 = FileData.content (ls1.map Except.ok))
    (h2 : fsys p2 = FileData.content (ls2.map Except.ok))
    (hpass : ∀ p ∈ ls1.zip ls2, pairPasses filters p.1 p.2 = true) :
    (ls2.length < ls1.length →
      compare_text_files fsys p1 p2 filters = Except.error (shorterMsg p2 ls2.length)) ∧
    (ls1.length < ls2.length →
      compare_text_files fsys p1 p2 filters = Except.error (shorterMsg p1 ls1.length)) := by
  have hred : compare_text_files fsys p1 p2 filters =
      compareLines p1 p2 filters 0 (ls1.map Except.ok) (ls2.map Except.ok) := by
    simp [compare_text_files, h1, h2]
  rw [hred, compareLines_of_passes p1 p2 filters ls1 ls2 0 hpass]
  constructor
  · intro h
    simp [h, Nat.lt_asymm h]
  · intro h
    simp [h]

theorem claim_C1_witness :
    compare_text_files
      (fun p => if p = "f1" then FileData.content [Except.ok "a", Except.ok "b"]
        else FileData.content [Except.ok "a"]) "f1" "f2" none =
      Except.error (shorterMsg "f2" 1) :=
  (claim_C1
    (fun p => if p = "f1" then FileData.content [Except.ok "a", Except.ok "b"]
      else FileData.content [Except.ok "a"]) "f1" "f2" none ["a", "b"] ["a"]
    (by decide) (by decide) (by decide)).1 (by decide)

/-- Claim C2: on files of equal line count, if position `K = pre1.length + 1`
(1-indexed) holds the first pair that is neither filter-skipped nor equal,
the call fails with the mismatch message carrying `K` and both lines'
literal content attributed to their source paths. -/
theorem claim_C2 (fsys : String → FileData) (p1 p2 : String)
    (filters : Option (List String)) (pre1 pre2 : List String) (l1 l2 : String)
    (suf1 suf2 : List String)
    (h1 : fsys p1 = FileData.content ((pre1 ++ l1 :: suf1).map Except.ok))
    (h2 : fsys p2 = FileData.content ((pre2 ++ l2 :: suf2).map Except.ok))
    (hfilelen : (pre1 ++ l1 :: suf1).length = (pre2 ++ l2 :: suf2).length)
    (hlen : pre1.length = pre2.length)
    (hpass : ∀ p ∈ pre1.zip pre2, pairPasses filters p.1 p.2 = true)
    (hskip : filterSkip filters l1 l2 = false) (hne : l1 ≠ l2) :
    compare_text_files fsys p1 p2 filters =
      Except.error (mismatchMsg (pre1.length + 1) p1 l1 p2 l2) := by
  have hred : compare_text_files fsys p1 p2 filters =
      compareLines p1 p2 filters 0 ((pre1 ++ l1 :: suf1).map Except.ok)
        ((pre2 ++ l2 :: suf2).map Except.ok) := by
    simp [compare_text_files, h1, h2]
  rw [hred, List.map_append, List.map_cons, List.map_append, List.map_cons]
  have h := compareLines_mismatch p1 p2 filters pre1 pre2 hlen hpass l1 l2 hskip hne
    (suf1.map Except.ok) (suf2.map Except.ok) 0
  simpa using h

theorem claim_C2_witness :
    compare_text_files
      (fun p => if p = "f1" then FileData.content [Except.ok "a", Except.ok "b"]
        else FileData.content [Except.ok "a", Except.ok "x"]) "f1" "f2" none =
      Except.error (mismatchMsg 2 "f1" "b" "f2" "x") := by
  have h := claim_C2
    (fun p => if p = "f1" then FileData.content [Except.ok "a", Except.ok "b"]
      else FileData.content [Except.ok "a", Except.ok "x"]) "f1" "f2" none
    ["a"] ["a"] "b" "x" [] [] (by decide) (by decide) (by decide) (by decide)
    (by decide) (by decide) (by decide)
  simpa using h

/-- Claim C3: a paired pair of lines is skipped exactly when a filter list is
supplied and some filter substring occurs in either line; the list is tried
in order with short-circuit semantics; a skip continues the loop at the next
pair with the line counter advanced, and the skipped pair's content is never
compared (the continuation does not depend on it). -/
theorem claim_C3 (fl : List String) (line1 line2 : String) :
    (filterSkip (some fl) line1 line2 = true ↔
      ∃ f ∈ fl, (strContains line1 f = true ∨ strContains line2 f = true)) ∧
    (filterSkip none line1 line2 = false) ∧
    (∀ f fs, filterSkip (some (f :: fs)) line1 line2 =
      ((strContains line1 f || strContains line2 f) || filterSkip (some fs) line1 line2)) ∧
    (∀ (path1 path2 : String) (n : Nat) (t1 t2 : List (Except String String)),
      filterSkip (some fl) line1 line2 = true →
      compareLines path1 path2 (some fl) n (Except.ok line1 :: t1) (Except.ok line2 :: t2) =
        compareLines path1 path2 (some fl) (n + 1) t1 t2) := by
  refine ⟨?_, rfl, ?_, ?_⟩
  · simp [filterSkip, List.any_eq_true, Bool.or_eq_true]
  · intro f fs
    simp [filterSkip, List.any_cons]
  · intro path1 path2 n t1 t2 h
    simp [compareLines, h]

theorem claim_C3_witness :
    compareLines "f1" "f2" (some ["_id"]) 0 [Except.ok "a_id: 1"] [Except.ok "a_id: 2"] =
      compareLines "f1" "f2" (some ["_id"]) 1 [] [] :=
  (claim_C3 ["_id"] "a_id: 1" "a_id: 2").2.2.2 "f1" "f2" 0 [] [] (by decide)

/-- Claim C4 as stated is false: a file whose line stream yields a read/decode
error (e.g. a binary file) fails even when compared against itself, so
"for every file, comparing that file against itself always succeeds" does not
hold.  Concrete counterexample: a file whose first line read errors. -/
theorem claim_C4_counterexample :
    compare_text_files
      (fun _ => FileData.content [Except.error "stream did not contain valid UTF-8"])
      "f" "f" none ≠ Except.ok () := by
  decide

/-- Claim C4 (amended): for every file that opens and whose every line decodes,
self-comparison succeeds with any filters; two files with identical
(error-free) line content always compare `Ok`; and in general the call
returns `Ok` exactly when both files open, every line reads, the line counts
agree, and every positional pair is filter-skipped or equal. -/
theorem claim_C4_amended (fsys : String → FileData) (filters : Option (List String)) :
    (∀ (p : String) (ls : List String), fsys p = FileData.content (ls.map Except.ok) →
      compare_text_files fsys p p filters = Except.ok ()) ∧
    (∀ (p1 p2 : String) (ls : List String), fsys p1 = FileData.content (ls.map Except.ok) →
      fsys p2 = FileData.content (ls.map Except.ok) →
      compare_text_files fsys p1 p2 filters = Except.ok ()) ∧
    (∀ p1 p2, compare_text_files fsys p1 p2 filters = Except.ok () ↔
      ∃ ls1 ls2 : List String,
        fsys p1 = FileData.content (ls1.map Except.ok) ∧
        fsys p2 = FileData.content (ls2.map Except.ok) ∧
        ls1.length = ls2.length ∧
        ∀ p ∈ ls1.zip ls2, pairPasses filters p.1 p.2 = true) := by
  have hsame : ∀ (p1 p2 : String) (ls : List String),
      fsys p1 = FileData.content (ls.map Except.ok) →
      fsys p2 = FileData.content (ls.map Except.ok) →
      compare_text_files fsys p1 p2 filters = Except.ok () := by
    intro p1 p2 ls hp1 hp2
    have hred : compare_text_files fsys p1 p2 filters =
        compareLines p1 p2 filters 0 (ls.map Except.ok) (ls.map Except.ok) := by
      simp [compare_text_files, hp1, hp2]
    have hpass : ∀ p ∈ ls.zip ls, pairPasses filters p.1 p.2 = true := by
      intro p hp
      have := zip_self_fst_eq_snd ls p hp
      simp [pairPasses, this]
    rw [hred, compareLines_of_passes p1 p2 filters ls ls 0 hpass]
    simp
  refine ⟨fun p ls h => hsame p p ls h h, hsame, ?_⟩
  intro p1 p2
  cases hf1 : fsys p1 with
  | openError e =>
    constructor
    · intro h
      simp [compare_text_files, hf1] at h
    · rintro ⟨ls1, ls2, hc1, -, -, -⟩
      exact FileData.noConfusion hc1
  | content xs =>
    cases hf2 : fsys p2 with
    | openError e =>
      constructor
      · intro h
        simp [compare_text_files, hf1, hf2] at h
      · rintro ⟨ls1, ls2, -, hc2, -, -⟩
        exact FileData.noConfusion hc2
    | content ys =>
      have hred : compare_text_files fsys p1 p2 filters = compareLines p1 p2 filters 0 xs ys := by
        simp [compare_text_files, hf1, hf2]
      rw [hred, compareLines_ok_iff p1 p2 filters xs ys 0]
      constructor
      · rintro ⟨ls1, ls2, hx, hy, hlen, hpass⟩
        exact ⟨ls1, ls2, by rw [hx], by rw [hy], hlen, hpass⟩
      · rintro ⟨ls1, ls2, hc1, hc2, hlen, hpass⟩
        injection hc1 with hc1
        injection hc2 with hc2
        exact ⟨ls1, ls2, hc1, hc2, hlen, hpass⟩

theorem claim_C4_amended_witness :
    compare_text_files (fun _ => FileData.content [Except.ok "x"]) "f" "f" none =
      Except.ok () :=
  (claim_C4_amended (fun _ => FileData.content [Except.ok "x"]) none).1 "f" ["x"] rfl

/-- Claim C9: when every line of file 1 pairs successfully and the next item
of file 2 is a pending read/decode error rather than a clean end of file, the
function still reports the length-mismatch error naming file 1 with file 1's
line count — not a read error naming file 2 — because the trailing check
`lines_2.next().is_some()` only asks whether a next item exists. -/
theorem claim_C9 (fsys : String → FileData) (p1 p2 : String)
    (filters : Option (List String)) (ls1 paired : List String) (e : String)
    (rest : List (Except String String))
    (h1 : fsys p1 = FileData.content (ls1.map Except.ok))
    (h2 : fsys p2 = FileData.content (paired.map Except.ok ++ Except.error e :: rest))
    (hlen : ls1.length = paired.length)
    (hpass : ∀ p ∈ ls1.zip paired, pairPasses filters p.1 p.2 = true) :
    compare_text_files fsys p1 p2 filters = Except.error (shorterMsg p1 ls1.length) ∧
    shorterMsg p1 ls1.length ≠ readErrorMsg e p2 := by
  constructor
  · have hred : compare_text_files fsys p1 p2 filters =
        compareLines p1 p2 filters 0 (ls1.map Except.ok)
          (paired.map Except.ok ++ Except.error e :: rest) := by
      simp [compare_text_files, h1, h2]
    rw [hred]
    have h := compareLines_exhaust1 p1 p2 filters ls1 paired hlen hpass
      (Except.error e :: rest) (by simp) 0
    simpa using h
  · intro hEq
    have ha : (shorterMsg p1 ls1.length).data.head? = some '\'' := rfl
    have hb : (readErrorMsg e p2).data.head? = some 'E' := rfl
    rw [hEq, hb] at ha
    exact absurd ha (by decide)

theorem claim_C9_witness :
    compare_text_files
      (fun p => if p = "f1" then FileData.content [Except.ok "a"]
        else FileData.content [Except.ok "a", Except.error "invalid utf-8"])
      "f1" "f2" none = Except.error (shorterMsg "f1" 1) :=
  (claim_C9
    (fun p => if p = "f1" then FileData.content [Except.ok "a"]
      else FileData.content [Except.ok "a", Except.error "invalid utf-8"])
    "f1" "f2" none ["a"] ["a"] "invalid utf-8" [] (by decide) (by decide)
    (by decide) (by decide)).1

/-- Claim C10: an empty filter list behaves exactly like no filters: the two
calls return the same result for all paths, because with an empty list no
line pair is ever skipped. -/
theorem claim_C10 (fsys : String → FileData) (p1 p2 : String) :
    compare_text_files fsys p1 p2 (some []) = compare_text_files fsys p1 p2 none := by
  unfold compare_text_files
  cases fsys p1 with
  | openError e => rfl
  | content ls1 =>
    cases fsys p2 with
    | openError e => rfl
    | content ls2 => exact compareLines_empty_filters p1 p2 ls1 ls2 0

/-- Claim C8: `to_slash_fmt` is a pure total function of the path's textual
form; the output has the same length as the input, contains no backslash
(every separator is rendered as a forward slash), and agrees with the input
character-for-character everywhere else. -/
theorem claim_C8 (p : String) :
    ((toSlashFmt p).data.length = p.data.length) ∧
    (∀ c ∈ (toSlashFmt p).data, c ≠ '\\') ∧
    (∀ i (h1 : i < p.data.length) (h2 : i < (toSlashFmt p).data.length),
      (toSlashFmt p).data.get ⟨i, h2⟩ =
        (if p.data.get ⟨i, h1⟩ = '\\' then '/' else p.data.get ⟨i, h1⟩)) := by
  refine ⟨by simp [toSlashFmt], ?_, ?_⟩
  · intro c hc
    simp only [toSlashFmt, List.mem_map] at hc
    obtain ⟨a, -, rfl⟩ := hc
    by_cases h : a = '\\' <;> simp [h]
  · intro i h1 h2
    simp [toSlashFmt, List.get_eq_getElem, List.getElem_map]

theorem claim_C8_witness :
    (toSlashFmt "ab\\cd").data.get ⟨2, by decide⟩ =
      (if "ab\\cd".data.get ⟨2, by decide⟩ = '\\' then '/'
       else "ab\\cd".data.get ⟨2, by decide⟩) :=
  (claim_C8 "ab\\cd").2.2 2 (by decide) (by decide)

/-- Claim C5: `a.is_current(b)` is true iff `a`'s wrapped instant is ≥ `b`'s;
`is_current` is reflexive, antisymmetric via equality, and transitive. -/
theorem claim_C5 (a b c : Timestamp) :
    (a.is_current b = true ↔ a.time ≥ b.time) ∧
    (a.is_current a = true) ∧
    (a.is_current b = true → b.is_current a = true → a = b) ∧
    (a.is_current b = true → b.is_current c = true → a.is_current c = true) := by
  refine ⟨by simp [Timestamp.is_current], by simp [Timestamp.is_current], ?_, ?_⟩
  · intro hab hba
    simp only [Timestamp.is_current, ge_iff_le, decide_eq_true_eq] at hab hba
    cases a with
    | mk ta =>
      cases b with
      | mk tb =>
        simp only at hab hba
        have : ta = tb := le_antisymm hba hab
        rw [this]
  · intro hab hbc
    simp only [Timestamp.is_current, ge_iff_le, decide_eq_true_eq] at hab hbc ⊢
    exact le_trans hbc hab

theorem claim_C5_witness :
    (Timestamp.mk 5).is_current (Timestamp.mk 3) = true ∧ Timestamp.mk 5 = Timestamp.mk 5 :=
  ⟨(claim_C5 (Timestamp.mk 5) (Timestamp.mk 3) (Timestamp.mk 3)).1.2 (by decide),
   (claim_C5 (Timestamp.mk 5) (Timestamp.mk 5) (Timestamp.mk 5)).2.2.1 (by decide) (by decide)⟩

theorem daysInYear_ge (y : Nat) : 365 ≤ daysInYear y := by
  unfold daysInYear
  split <;> omega

theorem daysInMonth_pos (y m : Nat) : 0 < daysInMonth y m := by
  unfold daysInMonth
  split
  · split <;> omega
  · split <;> omega

theorem daysInMonth_le (y m : Nat) : daysInMonth y m ≤ 31 := by
  unfold daysInMonth
  split
  · split <;> omega
  · split <;> omega

theorem sumYears_split (k j a : Nat) : sumYears a (j + k) = sumYears a j + sumYears (a + j) k := by
  induction j generalizing a with
  | zero => simp [sumYears]
  | succ j ih =>
    have : j + 1 + k = (j + k) + 1 := by omega
    rw [this]
    simp only [sumYears, ih (a + 1)]
    have : a + (j + 1) = a + 1 + j := by omega
    rw [this]
    omega

theorem sumYears_ge (a k : Nat) : 365 * k ≤ sumYears a k := by
  induction k generalizing a with
  | zero => simp [sumYears]
  | succ k ih =>
    simp only [sumYears]
    have h1 := daysInYear_ge a
    have h2 := ih (a + 1)
    omega

theorem sumMonths_split (y : Nat) (k j m : Nat) :
    sumMonths y m (j + k) = sumMonths y m j + sumMonths y (m + j) k := by
  induction j generalizing m with
  | zero => simp [sumMonths]
  | succ j ih =>
    have : j + 1 + k = (j + k) + 1 := by omega
    rw [this]
    simp only [sumMonths, ih (m + 1)]
    have : m + (j + 1) = m + 1 + j := by omega
    rw [this]
    omega

theorem daysInYear_eq_sumMonths (y : Nat) : daysInYear y = sumMonths y 1 12 := by
  cases h : isLeap y <;>
    simp [daysInYear, sumMonths, daysInMonth, h]

/-- Decomposition of the year scan: the result year is `a + k` for some `k`
not exceeding the fuel, and the input day count splits as the days of the
skipped years plus the residue. -/
theorem yearFromDays_decomp :
    ∀ (fuel a n y r : Nat), yearFromDays fuel a n = (y, r) →
      ∃ k, k ≤ fuel ∧ y = a + k ∧ n = sumYears a k + r := by
  intro fuel
  induction fuel with
  | zero =>
    intro a n y r h
    simp only [yearFromDays] at h
    injection h with h1 h2
    exact ⟨0, by omega, by omega, by simp [sumYears, h2]⟩
  | succ fuel ih =>
    intro a n y r h
    simp only [yearFromDays] at h
    by_cases hc : n < daysInYear a
    · rw [if_pos hc] at h
      injection h with h1 h2
      exact ⟨0, by omega, by omega, by simp [sumYears, h2]⟩
    · rw [if_neg hc] at h
      obtain ⟨k, hk, hy, hn⟩ := ih (a + 1) (n - daysInYear a) y r h
      refine ⟨k + 1, by omega, by omega, ?_⟩
      have : sumYears a (k + 1) = daysInYear a + sumYears (a + 1) k := rfl
      omega

/-- Soundness of the year scan: with fuel exceeding the day count the residue
is a genuine day-of-year, i.e. smaller than the length of the result year. -/
theorem yearFromDays_sound :
    ∀ (fuel a n y r : Nat), yearFromDays fuel a n = (y, r) → n < fuel → r < daysInYear y := by
  intro fuel
  induction fuel with
  | zero =>
    intro a n y r h hn
    omega
  | succ fuel ih =>
    intro a n y r h hn
    simp only [yearFromDays] at h
    by_cases hc : n < daysInYear a
    · rw [if_pos hc] at h
      injection h with h1 h2
      subst h1
      subst h2
      omega
    · rw [if_neg hc] at h
      have h365 := daysInYear_ge a
      exact ih (a + 1) (n - daysInYear a) y r h (by omega)

/-- Completeness of the year scan: starting `k ≤ fuel` years below the target
year and offset by exactly the days of those years plus a valid day-of-year
residue, the scan lands on the target. -/
theorem yearFromDays_complete :
    ∀ (k fuel a r : Nat), k ≤ fuel → r < daysInYear (a + k) →
      yearFromDays fuel a (sumYears a k + r) = (a + k, r) := by
  intro k
  induction k with
  | zero =>
    intro fuel a r _ hr
    cases fuel with
    | zero => simp [yearFromDays, sumYears]
    | succ fuel =>
      simp only [sumYears, yearFromDays, Nat.zero_add]
      rw [if_pos (by simpa using hr)]
      simp
  | succ k ih =>
    intro fuel a r hk hr
    cases fuel with
    | zero => omega
    | succ fuel =>
      have hsum : sumYears a (k + 1) = daysInYear a + sumYears (a + 1) k := rfl
      have hne : ¬(sumYears a (k + 1) + r < daysInYear a) := by omega
      simp only [yearFromDays]
      rw [if_neg hne]
      have harg : sumYears a (k + 1) + r - daysInYear a = sumYears (a + 1) k + r := by omega
      rw [harg]
      have hr' : r < daysInYear (a + 1 + k) := by
        have : a + 1 + k = a + (k + 1) := by omega
        rw [this]
        exact hr
      have := ih fuel (a + 1) r (by omega) hr'
      rw [this]
      have : a + 1 + k = a + (k + 1) := by omega
      rw [this]

/-- Decomposition of the month scan, analogous to `yearFromDays_decomp`. -/
theorem monthFromDays_decomp (y : Nat) :
    ∀ (fuel m doy m' d0 : Nat), monthFromDays y fuel m doy = (m', d0) →
      ∃ k, k ≤ fuel ∧ m' = m + k ∧ doy = sumMonths y m k + d0 := by
  intro fuel
  induction fuel with
  | zero =>
    intro m doy m' d0 h
    simp only [monthFromDays] at h
    injection h with h1 h2
    exact ⟨0, by omega, by omega, by simp [sumMonths, h2]⟩
  | succ fuel ih =>
    intro m doy m' d0 h
    simp only [monthFromDays] at h
    by_cases hc : doy < daysInMonth y m
    · rw [if_pos hc] at h
      injection h with h1 h2
      exact ⟨0, by omega, by omega, by simp [sumMonths, h2]⟩
    · rw [if_neg hc] at h
      obtain ⟨k, hk, hm, hd⟩ := ih (m + 1) (doy - daysInMonth y m) m' d0 h
      refine ⟨k + 1, by omega, by omega, ?_⟩
      have : sumMonths y m (k + 1) = daysInMonth y m + sumMonths y (m + 1) k := rfl
      omega

/-- Soundness of the month scan: if the day-of-year is below the total of the
months the fuel covers, the residue is a genuine day-of-month. -/
theorem monthFromDays_sound (y : Nat) :
    ∀ (fuel m doy m' d0 : Nat), monthFromDays y fuel m doy = (m', d0) →
      doy < sumMonths y m fuel → d0 < daysInMonth y m' := by
  intro fuel
  induction fuel with
  | zero =>
    intro m doy m' d0 h hdoy
    simp [sumMonths] at hdoy
  | succ fuel ih =>
    intro m doy m' d0 h hdoy
    simp only [monthFromDays] at h
    by_cases hc : doy < daysInMonth y m
    · rw [if_pos hc] at h
      injection h with h1 h2
      subst h1
      omega
    · rw [if_neg hc] at h
      have hsum : sumMonths y m (fuel + 1) = daysInMonth y m + sumMonths y (m + 1) fuel := rfl
      exact ih (m + 1) (doy - daysInMonth y m) m' d0 h (by omega)

/-- Completeness of the month scan, analogous to `yearFromDays_complete`. -/
theorem monthFromDays_complete (y : Nat) :
    ∀ (k fuel m d0 : Nat), k ≤ fuel → d0 < daysInMonth y (m + k) →
      monthFromDays y fuel m (sumMonths y m k + d0) = (m + k, d0) := by
  intro k
  induction k with
  | zero =>
    intro fuel m d0 _ hd
    cases fuel with
    | zero => simp [monthFromDays, sumMonths]
    | succ fuel =>
      simp only [sumMonths, monthFromDays, Nat.zero_add]
      rw [if_pos (by simpa using hd)]
      simp
  | succ k ih =>
    intro fuel m d0 hk hd
    cases fuel with
    | zero => omega
    | succ fuel =>
      have hsum : sumMonths y m (k + 1) = daysInMonth y m + sumMonths y (m + 1) k := rfl
      have hne : ¬(sumMonths y m (k + 1) + d0 < daysInMonth y m) := by omega
      simp only [monthFromDays]
      rw [if_neg hne]
      have harg : sumMonths y m (k + 1) + d0 - daysInMonth y m = sumMonths y (m + 1) k + d0 := by
        omega
      rw [harg]
      have hd' : d0 < daysInMonth y (m + 1 + k) := by
        have : m + 1 + k = m + (k + 1) := by omega
        rw [this]
        exact hd
      have := ih fuel (m + 1) d0 (by omega) hd'
      rw [this]
      have : m + 1 + k = m + (k + 1) := by omega
      rw [this]

/-- Full specification of `civilFromDays`: the produced civil date is valid
(year at least 1970, month 1-12, day within the month) and `daysFromCivil`
maps it back to the input day count. -/
theorem civilFromDays_spec (n : Nat) :
    daysFromCivil (civilFromDays n).1 (civilFromDays n).2.1 (civilFromDays n).2.2 = n ∧
    1970 ≤ (civilFromDays n).1 ∧
    1 ≤ (civilFromDays n).2.1 ∧ (civilFromDays n).2.1 ≤ 12 ∧
    1 ≤ (civilFromDays n).2.2 ∧
    (civilFromDays n).2.2 ≤ daysInMonth (civilFromDays n).1 (civilFromDays n).2.1 := by
  rcases hYR : yearFromDays (n + 1) 1970 n with ⟨y, r⟩
  rcases hMD : monthFromDays y 12 1 r with ⟨m, d0⟩
  have hcd : civilFromDays n = (y, m, d0 + 1) := by
    simp [civilFromDays, hYR, hMD]
  obtain ⟨k, hk, hyk, hnk⟩ := yearFromDays_decomp (n + 1) 1970 n y r hYR
  have hr : r < daysInYear y := yearFromDays_sound (n + 1) 1970 n y r hYR (by omega)
  obtain ⟨j, hj, hmj, hrj⟩ := monthFromDays_decomp y 12 1 r m d0 hMD
  have hd0 : d0 < daysInMonth y m := by
    apply monthFromDays_sound y 12 1 r m d0 hMD
    rw [← daysInYear_eq_sumMonths]
    exact hr
  have hjlt : j < 12 := by
    by_contra hge
    push_neg at hge
    have hsplit := sumMonths_split y (j - 12) 12 1
    have h12 : 12 + (j - 12) = j := by omega
    rw [h12] at hsplit
    rw [daysInYear_eq_sumMonths] at hr
    omega
  rw [hcd]
  dsimp only
  refine ⟨?_, by omega, by omega, by omega, by omega, by omega⟩
  unfold daysFromCivil
  have h1 : y - 1970 = k := by omega
  have h2 : m - 1 = j := by omega
  rw [h1, h2]
  omega

/-- With a day count below the days of years 1970-9999, `civilFromDays`
produces a year of at most four digits. -/
theorem civilFromDays_year_le (n : Nat) (h : n < sumYears 1970 8030) :
    (civilFromDays n).1 ≤ 9999 := by
  rcases hYR : yearFromDays (n + 1) 1970 n with ⟨y, r⟩
  obtain ⟨k, hk, hyk, hnk⟩ := yearFromDays_decomp (n + 1) 1970 n y r hYR
  have hklt : k < 8030 := by
    by_contra hge
    push_neg at hge
    have hsplit := sumYears_split (k - 8030) 8030 1970
    have h8030 : 8030 + (k - 8030) = k := by omega
    rw [h8030] at hsplit
    omega
  simp only [civilFromDays, hYR]
  omega

/-- `civilFromDays` is a left inverse of `daysFromCivil` on valid civil
dates. -/
theorem civilFromDays_daysFromCivil (y m d : Nat) (hy : 1970 ≤ y) (hm1 : 1 ≤ m)
    (hm2 : m ≤ 12) (hd1 : 1 ≤ d) (hd2 : d ≤ daysInMonth y m) :
    civilFromDays (daysFromCivil y m d) = (y, m, d) := by
  have hm' : 1 + (m - 1) = m := by omega
  have hinnerlt : sumMonths y 1 (m - 1) + (d - 1) < daysInYear y := by
    rw [daysInYear_eq_sumMonths]
    have hsplit := sumMonths_split y (12 - (m - 1)) (m - 1) 1
    have h12 : (m - 1) + (12 - (m - 1)) = 12 := by omega
    rw [h12, hm'] at hsplit
    have hfirst : sumMonths y m (12 - (m - 1)) =
        daysInMonth y m + sumMonths y (m + 1) (12 - (m - 1) - 1) := by
      have hsww : 12 - (m - 1) = (12 - (m - 1) - 1) + 1 := by omega
      rw [hsww]
      rfl
    omega
  have harg : daysFromCivil y m d =
      sumYears 1970 (y - 1970) + (sumMonths y 1 (m - 1) + (d - 1)) := by
    unfold daysFromCivil
    omega
  have hyfd : yearFromDays (daysFromCivil y m d + 1) 1970 (daysFromCivil y m d) =
      (y, sumMonths y 1 (m - 1) + (d - 1)) := by
    rw [harg]
    have hge := sumYears_ge 1970 (y - 1970)
    have hfk := yearFromDays_complete (y - 1970)
      (sumYears 1970 (y - 1970) + (sumMonths y 1 (m - 1) + (d - 1)) + 1) 1970
      (sumMonths y 1 (m - 1) + (d - 1))
      (by omega)
      (by
        have h1970 : 1970 + (y - 1970) = y := by omega
        rw [h1970]
        exact hinnerlt)
    have h1970 : 1970 + (y - 1970) = y := by omega
    rw [h1970] at hfk
    exact hfk
  have hmfd : monthFromDays y 12 1 (sumMonths y 1 (m - 1) + (d - 1)) = (m, d - 1) := by
    have hfk := monthFromDays_complete y (m - 1) 12 1 (d - 1) (by omega)
      (by rw [hm']; omega)
    rw [hm'] at hfk
    exact hfk
  show ((yearFromDays (daysFromCivil y m d + 1) 1970 (daysFromCivil y m d)).1,
      (monthFromDays (yearFromDays (daysFromCivil y m d + 1) 1970 (daysFromCivil y m d)).1 12 1
        (yearFromDays (daysFromCivil y m d + 1) 1970 (daysFromCivil y m d)).2).1,
      (monthFromDays (yearFromDays (daysFromCivil y m d + 1) 1970 (daysFromCivil y m d)).1 12 1
        (yearFromDays (daysFromCivil y m d + 1) 1970 (daysFromCivil y m d)).2).2 + 1) =
    (y, m, d)
  rw [hyfd]
  dsimp only
  rw [hmfd]
  dsimp only
  have hdd : d - 1 + 1 = d := by omega
  rw [hdd]

theorem parseDigit_digitChar (d : Nat) (h : d < 10) : parseDigit (digitChar d) = some d := by
  interval_cases d <;> rfl

theorem digitChar_parseDigit (c : Char) (d : Nat) (h : parseDigit c = some d) :
    digitChar d = c := by
  unfold parseDigit at h
  split_ifs at h with h0 h1 h2 h3 h4 h5 h6 h7 h8 h9
  · injection h with h; subst h; subst h0; rfl
  · injection h with h; subst h; subst h1; rfl
  · injection h with h; subst h; subst h2; rfl
  · injection h with h; subst h; subst h3; rfl
  · injection h with h; subst h; subst h4; rfl
  · injection h with h; subst h; subst h5; rfl
  · injection h with h; subst h; subst h6; rfl
  · injection h with h; subst h; subst h7; rfl
  · injection h with h; subst h; subst h8; rfl
  · injection h with h; subst h; subst h9; rfl

theorem parseDigit_lt (c : Char) (d : Nat) (h : parseDigit c = some d) : d < 10 := by
  unfold parseDigit at h
  split_ifs at h <;>
    first
    | exact Option.noConfusion h
    | (injection h with h; omega)

theorem parse2_pad2 (n : Nat) (h : n < 100) :
    parse2 (digitChar (n / 10)) (digitChar (n % 10)) = some n := by
  unfold parse2
  rw [parseDigit_digitChar _ (by omega), parseDigit_digitChar _ (by omega)]
  simp only [Option.some.injEq]
  omega

theorem parse3_pad3 (n : Nat) (h : n < 1000) :
    parse3 (digitChar (n / 100)) (digitChar (n / 10 % 10)) (digitChar (n % 10)) = some n := by
  unfold parse3
  rw [parseDigit_digitChar _ (by omega), parseDigit_digitChar _ (by omega),
    parseDigit_digitChar _ (by omega)]
  simp only [Option.some.injEq]
  omega

theorem parse4_pad4 (n : Nat) (h : n < 10000) :
    parse4 (digitChar (n / 1000)) (digitChar (n / 100 % 10)) (digitChar (n / 10 % 10))
      (digitChar (n % 10)) = some n := by
  unfold parse4
  rw [parseDigit_digitChar _ (by omega), parseDigit_digitChar _ (by omega),
    parseDigit_digitChar _ (by omega), parseDigit_digitChar _ (by omega)]
  simp only [Option.some.injEq]
  omega

theorem parse2_eq (a b : Char) (v : Nat) (h : parse2 a b = some v) :
    v < 100 ∧ pad2 v = [a, b] := by
  unfold parse2 at h
  cases hpa : parseDigit a with
  | none => rw [hpa] at h; simp at h
  | some x =>
    cases hpb : parseDigit b with
    | none => rw [hpa, hpb] at h; simp at h
    | some y =>
      rw [hpa, hpb] at h
      simp only [Option.some.injEq] at h
      have hx := parseDigit_lt a x hpa
      have hy := parseDigit_lt b y hpb
      refine ⟨by omega, ?_⟩
      unfold pad2
      have h1 : v / 10 = x := by omega
      have h2 : v % 10 = y := by omega
      rw [h1, h2, digitChar_parseDigit a x hpa, digitChar_parseDigit b y hpb]

theorem parse3_eq (a b c : Char) (v : Nat) (h : parse3 a b c = some v) :
    v < 1000 ∧ pad3 v = [a, b, c] := by
  unfold parse3 at h
  cases hpa : parseDigit a with
  | none => rw [hpa] at h; simp at h
  | some x =>
    cases hpb : parseDigit b with
    | none => rw [hpa, hpb] at h; simp at h
    | some y =>
      cases hpc : parseDigit c with
      | none => rw [hpa, hpb, hpc] at h; simp at h
      | some z =>
        rw [hpa, hpb, hpc] at h
        simp only [Option.some.injEq] at h
        have hx := parseDigit_lt a x hpa
        have hy := parseDigit_lt b y hpb
        have hz := parseDigit_lt c z hpc
        refine ⟨by omega, ?_⟩
        unfold pad3
        have h1 : v / 100 = x := by omega
        have h2 : v / 10 % 10 = y := by omega
        have h3 : v % 10 = z := by omega
        rw [h1, h2, h3, digitChar_parseDigit a x hpa, digitChar_parseDigit b y hpb,
          digitChar_parseDigit c z hpc]

theorem parse4_eq (a b c d : Char) (v : Nat) (h : parse4 a b c d = some v) :
    v < 10000 ∧ pad4 v = [a, b, c, d] := by
  unfold parse4 at h
  cases hpa : parseDigit a with
  | none => rw [hpa] at h; simp at h
  | some x =>
    cases hpb : parseDigit b with
    | none => rw [hpa, hpb] at h; simp at h
    | some y =>
      cases hpc : parseDigit c with
      | none => rw [hpa, hpb, hpc] at h; simp at h
      | some z =>
        cases hpd : parseDigit d with
        | none => rw [hpa, hpb, hpc, hpd] at h; simp at h
        | some w =>
          rw [hpa, hpb, hpc, hpd] at h
          simp only [Option.some.injEq] at h
          have hx := parseDigit_lt a x hpa
          have hy := parseDigit_lt b y hpb
          have hz := parseDigit_lt c z hpc
          have hw := parseDigit_lt d w hpd
          refine ⟨by omega, ?_⟩
          unfold pad4
          have h1 : v / 1000 = x := by omega
          have h2 : v / 100 % 10 = y := by omega
          have h3 : v / 10 % 10 = z := by omega
          have h4 : v % 10 = w := by omega
          rw [h1, h2, h3, h4, digitChar_parseDigit a x hpa, digitChar_parseDigit b y hpb,
            digitChar_parseDigit c z hpc, digitChar_parseDigit d w hpd]

/-- Printing then parsing an in-range millisecond count is the identity. -/
theorem parseRfc3339_printRfc3339 (n : Nat) (h : n < msBound) :
    parseRfc3339 (printRfc3339 n) = some n := by
  have hdays : n / 86400000 < sumYears 1970 8030 := by
    unfold msBound at h
    omega
  obtain ⟨hback, hy1970, hm1, hm2, hd1, hd2⟩ := civilFromDays_spec (n / 86400000)
  have hyle := civilFromDays_year_le (n / 86400000) hdays
  have hdm := daysInMonth_le (civilFromDays (n / 86400000)).1 (civilFromDays (n / 86400000)).2.1
  simp only [printRfc3339, pad4, pad2, pad3, List.cons_append, List.nil_append, List.append_nil]
  rw [parseRfc3339]
  rw [if_pos (⟨rfl, rfl, rfl, rfl, rfl, rfl, rfl⟩ :
    ('-' = '-' ∧ '-' = '-' ∧ 'T' = 'T' ∧ ':' = ':' ∧ ':' = ':' ∧ '.' = '.' ∧ 'Z' = 'Z'))]
  rw [parse4_pad4 _ (by omega), parse2_pad2 _ (by omega), parse2_pad2 _ (by omega),
    parse2_pad2 _ (by omega), parse2_pad2 _ (by omega), parse2_pad2 _ (by omega),
    parse3_pad3 _ (by omega)]
  dsimp only
  rw [if_pos ⟨hy1970, hyle, hm1, hm2, hd1, hd2, by omega, by omega, by omega⟩]
  rw [hback]
  simp only [Option.some.injEq]
  omega

set_option maxHeartbeats 2000000 in
/-- Parsing succeeds only on the canonical rendering: a successfully parsed
24-character timestamp string is exactly the printed form of its value. -/
theorem printRfc3339_parseRfc3339 (cs : List Char) (n : Nat) (h : parseRfc3339 cs = some n) :
    printRfc3339 n = cs := by
  rcases cs with _ | ⟨c1, _ | ⟨c2, _ | ⟨c3, _ | ⟨c4, _ | ⟨c5, _ | ⟨c6, _ | ⟨c7, _ | ⟨c8, _ | ⟨c9, _ | ⟨c10, _ | ⟨c11, _ | ⟨c12, _ | ⟨c13, _ | ⟨c14, _ | ⟨c15, _ | ⟨c16, _ | ⟨c17, _ | ⟨c18, _ | ⟨c19, _ | ⟨c20, _ | ⟨c21, _ | ⟨c22, _ | ⟨c23, _ | ⟨c24, _ | ⟨c25, rest⟩⟩⟩⟩⟩⟩⟩⟩⟩⟩⟩⟩⟩⟩⟩⟩⟩⟩⟩⟩⟩⟩⟩⟩⟩
  all_goals (simp only [parseRfc3339] at h)
  all_goals (try (exact Option.noConfusion h))
  by_cases hsep : (c5 = '-' ∧ c8 = '-' ∧ c11 = 'T' ∧ c14 = ':' ∧ c17 = ':' ∧ c20 = '.' ∧ c24 = 'Z')
  case neg => rw [if_neg hsep] at h; exact Option.noConfusion h
  rw [if_pos hsep] at h
  obtain ⟨hs1, hs2, hs3, hs4, hs5, hs6, hs7⟩ := hsep
  subst hs1
  subst hs2
  subst hs3
  subst hs4
  subst hs5
  subst hs6
  subst hs7
  cases hp1 : parse4 c1 c2 c3 c4 with
  | none => rw [hp1] at h; simp at h
  | some y =>
  cases hp2 : parse2 c6 c7 with
  | none => rw [hp1, hp2] at h; simp at h
  | some mo =>
  cases hp3 : parse2 c9 c10 with
  | none => rw [hp1, hp2, hp3] at h; simp at h
  | some d =>
  cases hp4 : parse2 c12 c13 with
  | none => rw [hp1, hp2, hp3, hp4] at h; simp at h
  | some hh =>
  cases hp5 : parse2 c15 c16 with
  | none => rw [hp1, hp2, hp3, hp4, hp5] at h; simp at h
  | some mi =>
  cases hp6 : parse2 c18 c19 with
  | none => rw [hp1, hp2, hp3, hp4, hp5, hp6] at h; simp at h
  | some ss =>
  cases hp7 : parse3 c21 c22 c23 with
  | none => rw [hp1, hp2, hp3, hp4, hp5, hp6, hp7] at h; simp at h
  | some ms =>
  rw [hp1, hp2, hp3, hp4, hp5, hp6, hp7] at h
  dsimp only at h
  by_cases hval : (1970 ≤ y ∧ y ≤ 9999 ∧ 1 ≤ mo ∧ mo ≤ 12 ∧ 1 ≤ d ∧ d ≤ daysInMonth y mo ∧
      hh ≤ 23 ∧ mi ≤ 59 ∧ ss ≤ 59)
  case neg => rw [if_neg hval] at h; exact Option.noConfusion h
  rw [if_pos hval] at h
  obtain ⟨hv1, hv2, hv3, hv4, hv5, hv6, hv7, hv8, hv9⟩ := hval
  injection h with h
  subst h
  obtain ⟨hy4, hpady⟩ := parse4_eq c1 c2 c3 c4 y hp1
  obtain ⟨hmo2, hpadmo⟩ := parse2_eq c6 c7 mo hp2
  obtain ⟨hd2, hpadd⟩ := parse2_eq c9 c10 d hp3
  obtain ⟨hh2, hpadh⟩ := parse2_eq c12 c13 hh hp4
  obtain ⟨hmi2, hpadmi⟩ := parse2_eq c15 c16 mi hp5
  obtain ⟨hss2, hpadss⟩ := parse2_eq c18 c19 ss hp6
  obtain ⟨hms3, hpadms⟩ := parse3_eq c21 c22 c23 ms hp7
  have hdaysq : (daysFromCivil y mo d * 86400000 + hh * 3600000 + mi * 60000 + ss * 1000 + ms) /
      86400000 = daysFromCivil y mo d := by omega
  have hremq : (daysFromCivil y mo d * 86400000 + hh * 3600000 + mi * 60000 + ss * 1000 + ms) %
      86400000 = hh * 3600000 + mi * 60000 + ss * 1000 + ms := by omega
  have hciv := civilFromDays_daysFromCivil y mo d hv1 hv3 hv4 hv5 hv6
  have h1q : (hh * 3600000 + mi * 60000 + ss * 1000 + ms) / 3600000 = hh := by omega
  have h2q : (hh * 3600000 + mi * 60000 + ss * 1000 + ms) / 60000 % 60 = mi := by omega
  have h3q : (hh * 3600000 + mi * 60000 + ss * 1000 + ms) / 1000 % 60 = ss := by omega
  have h4q : (hh * 3600000 + mi * 60000 + ss * 1000 + ms) % 1000 = ms := by omega
  simp only [printRfc3339, hdaysq, hremq, hciv, h1q, h2q, h3q, h4q]
  rw [hpady, hpadmo, hpadd, hpadh, hpadmi, hpadss, hpadms]
  rfl

/-- The printed RFC-3339 form is exactly 24 characters. -/
theorem printRfc3339_length (n : Nat) : (printRfc3339 n).length = 24 := by
  simp [printRfc3339, pad4, pad2, pad3]

/-- Deserialization inverts serialization on the supported instant range. -/
theorem deserializeTimestamp_serializeTimestamp (t : Timestamp) (h0 : 0 ≤ t.time)
    (h1 : t.time < (msBound : Int)) :
    deserializeTimestamp (serializeTimestamp t) = Except.ok t := by
  have hn : t.time.toNat < msBound := by omega
  have hpre : ("\x7b\"time\":\"".data).length = 9 := rfl
  have hmid := printRfc3339_length t.time.toNat
  have hdata : (serializeTimestamp t).data =
      "\x7b\"time\":\"".data ++ (printRfc3339 t.time.toNat ++ "\"\x7d".data) := by
    simp [serializeTimestamp]
  have hc1 : (serializeTimestamp t).data.take 9 = "\x7b\"time\":\"".data := by
    rw [hdata]
    exact List.take_left' hpre
  have hlen : (serializeTimestamp t).data.length = 35 := by
    rw [hdata]
    simp [List.length_append, hmid, hpre]
  have hc3 : (serializeTimestamp t).data.drop 33 = "\"\x7d".data := by
    have hassoc : (serializeTimestamp t).data =
        ("\x7b\"time\":\"".data ++ printRfc3339 t.time.toNat) ++ "\"\x7d".data := by
      simp [serializeTimestamp]
    rw [hassoc]
    apply List.drop_left'
    simp [List.length_append, hmid, hpre]
  have hmid2 : ((serializeTimestamp t).data.drop 9).take 24 = printRfc3339 t.time.toNat := by
    rw [hdata, List.drop_left' hpre]
    exact List.take_left' hmid
  unfold deserializeTimestamp
  rw [if_pos ⟨hc1, hlen, hc3⟩, hmid2, parseRfc3339_printRfc3339 t.time.toNat hn]
  dsimp only
  have htn : Int.ofNat t.time.toNat = t.time := by
    exact_mod_cast Int.toNat_of_nonneg h0
  rw [htn]

/-- A generous lower bound on `msBound` (365-day years). -/
theorem msBound_big : 31536000000 ≤ msBound := by
  unfold msBound
  have h := sumYears_ge 1970 8030
  omega

theorem msBound_pos_int : (0 : Int) < (msBound : Int) := by
  have := msBound_big
  omega

theorem msBound_gt_one_int : (1 : Int) < (msBound : Int) := by
  have := msBound_big
  omega

/-- Successful deserialization only happens on the canonical serialized form:
the input is exactly the serialization of the result. -/
theorem deserializeTimestamp_canonical (s : String) (t : Timestamp)
    (h : deserializeTimestamp s = Except.ok t) : s = serializeTimestamp t := by
  unfold deserializeTimestamp at h
  by_cases hc : (s.data.take 9 = "\x7b\"time\":\"".data ∧ s.data.length = 35 ∧
      s.data.drop 33 = "\"\x7d".data)
  case neg =>
    rw [if_neg hc] at h
    exact Except.noConfusion h
  rw [if_pos hc] at h
  obtain ⟨hc1, hc2, hc3⟩ := hc
  cases hp : parseRfc3339 ((s.data.drop 9).take 24) with
  | none =>
    rw [hp] at h
    exact Except.noConfusion h
  | some n =>
    rw [hp] at h
    dsimp only at h
    injection h with h
    subst h
    have hprint := printRfc3339_parseRfc3339 ((s.data.drop 9).take 24) n hp
    apply String.ext
    calc s.data = s.data.take 9 ++ s.data.drop 9 := (List.take_append_drop 9 s.data).symm
      _ = s.data.take 9 ++ ((s.data.drop 9).take 24 ++ s.data.drop (9 + 24)) := by
            rw [List.drop_take_append_drop]
      _ = "\x7b\"time\":\"".data ++ (printRfc3339 n ++ "\"\x7d".data) := by
            have h33 : (9 : Nat) + 24 = 33 := rfl
            rw [hc1, ← hprint, h33, hc3]
      _ = (serializeTimestamp (Timestamp.mk (Int.ofNat n))).data := by
            simp [serializeTimestamp]

/-- Claim C6: serializing a `Timestamp` to JSON and deserializing the result
yields a `Timestamp` equal to the original (instant equality), and the
deserialized values' `is_current` / ordering behaviour matches the originals'
exactly; the model's millisecond instants are preserved bit-for-bit, hence
sub-second precision to (at least) millisecond granularity. -/
theorem claim_C6 (a b : Timestamp) (ha0 : 0 ≤ a.time) (ha1 : a.time < (msBound : Int))
    (hb0 : 0 ≤ b.time) (hb1 : b.time < (msBound : Int)) :
    deserializeTimestamp (serializeTimestamp a) = Except.ok a ∧
    deserializeTimestamp (serializeTimestamp b) = Except.ok b ∧
    (∀ a' b' : Timestamp, deserializeTimestamp (serializeTimestamp a) = Except.ok a' →
      deserializeTimestamp (serializeTimestamp b) = Except.ok b' →
      (a'.is_current b' = a.is_current b ∧ (a'.time ≤ b'.time ↔ a.time ≤ b.time) ∧
        (a' = b' ↔ a = b))) := by
  have hda := deserializeTimestamp_serializeTimestamp a ha0 ha1
  have hdb := deserializeTimestamp_serializeTimestamp b hb0 hb1
  refine ⟨hda, hdb, ?_⟩
  intro a' b' ha' hb'
  rw [hda] at ha'
  rw [hdb] at hb'
  injection ha' with ha'
  injection hb' with hb'
  subst ha'
  subst hb'
  exact ⟨rfl, Iff.rfl, Iff.rfl⟩

theorem claim_C6_witness :
    deserializeTimestamp (serializeTimestamp (Timestamp.mk 0)) = Except.ok (Timestamp.mk 0) ∧
    deserializeTimestamp (serializeTimestamp (Timestamp.mk 1)) = Except.ok (Timestamp.mk 1) :=
  ⟨(claim_C6 (Timestamp.mk 0) (Timestamp.mk 1) (by decide) msBound_pos_int (by decide)
      msBound_gt_one_int).1,
   (claim_C6 (Timestamp.mk 0) (Timestamp.mk 1) (by decide) msBound_pos_int (by decide)
      msBound_gt_one_int).2.1⟩

/-- Claim C7: deserializing a `Timestamp` from malformed JSON, from an object
lacking the `time` field, from a wrong-typed field, or from an invalid
timestamp string fails with a descriptive error; an `Ok` result only ever
arises from the canonical serialization of that very value, so no input can
silently produce a default or zero `Timestamp`; and `from_path` on an
unopenable file likewise yields an error. -/
theorem claim_C7 :
    (∀ (s : String) (t : Timestamp), deserializeTimestamp s = Except.ok t →
      s = serializeTimestamp t) ∧
    (∀ (fsys : String → Option String) (p : String), fsys p = none →
      ∃ e, Timestamp.from_path fsys p = Except.error e) ∧
    (∃ e, deserializeTimestamp "not json" = Except.error e) ∧
    (∃ e, deserializeTimestamp "\x7b\"stamp\":\"1970-01-01T00:00:00.000Z\"\x7d" =
      Except.error e) ∧
    (∃ e, deserializeTimestamp "\x7b\"time\":1234567890123456789012345\x7d" =
      Except.error e) ∧
    (∃ e, deserializeTimestamp "\x7b\"time\":\"1972-02-30T00:00:00.000Z\"\x7d" =
      Except.error e) := by
  refine ⟨deserializeTimestamp_canonical, ?_, ?_, ?_, ?_, ?_⟩
  · intro fsys p h
    refine ⟨"could not open timestamp file", ?_⟩
    unfold Timestamp.from_path
    rw [h]
  · exact ⟨"malformed Timestamp JSON: expected an object with one string field named time",
      by decide⟩
  · exact ⟨"malformed Timestamp JSON: expected an object with one string field named time",
      by decide⟩
  · exact ⟨"malformed Timestamp JSON: expected an object with one string field named time",
      by decide⟩
  · exact ⟨"invalid timestamp string in Timestamp JSON", by decide⟩

theorem claim_C7_witness :
    (∃ e, Timestamp.from_path (fun _ => none) "stamp.json" = Except.error e) ∧
    serializeTimestamp (Timestamp.mk 0) = serializeTimestamp (Timestamp.mk 0) :=
  ⟨claim_C7.2.1 (fun _ => none) "stamp.json" rfl,
   claim_C7.1 (serializeTimestamp (Timestamp.mk 0)) (Timestamp.mk 0)
     (deserializeTimestamp_serializeTimestamp (Timestamp.mk 0) (by decide) msBound_pos_int)⟩

end Slitu
